import Mathlib

/-!
# Verification of `wagtail/api/v2/router.py` (`WagtailAPIRouter`)

A shallow embedding of the router module.  Python dictionaries are modelled
as insertion-ordered association lists (`List (K × V)`) with the exact
semantics of `d[k] = v` (overwrite in place, else append), `d.setdefault`
(insert only if absent) and `d[k]` / `k in d` (first matching key).

Model classes are identified by `Nat` keys; a model type is represented by
its method-resolution order (`__mro__`), the list of class keys starting
with the class itself, most-derived first.

Requests are records carrying the `wagtailapi_router` attribute (an
`Option Nat` router reference, `none` before any wrapper ran) plus the rest
of the request data; a view is a function from requests to responses.
-/

set_option autoImplicit false

namespace WagtailRouter

/-- Python `d[k] = v` on an insertion-ordered dict: overwrite the value in
place if the key is present, otherwise append the new pair at the end. -/
def dictAssign {K V : Type} [DecidableEq K] : List (K × V) → K → V → List (K × V)
  | [], k, v => [(k, v)]
  | (k', v') :: rest, k, v =>
      if k' = k then (k, v) :: rest else (k', v') :: dictAssign rest k v

/-- Python `d.setdefault(k, v)`'s effect on the dict: insert `(k, v)` at the
end only if `k` is absent; a present key leaves the dict unchanged. -/
def dictSetdefault {K V : Type} [DecidableEq K] : List (K × V) → K → V → List (K × V)
  | [], k, v => [(k, v)]
  | (k', v') :: rest, k, v =>
      if k' = k then (k', v') :: rest else (k', v') :: dictSetdefault rest k v

/-- Python `d[k]` / `d.get(k)`: the value of the first matching key. -/
def dictGet? {K V : Type} [DecidableEq K] : List (K × V) → K → Option V
  | [], _ => none
  | (k', v') :: rest, k => if k' = k then some v' else dictGet? rest k

/-- Python `k in d`. -/
def dictContains {K V : Type} [DecidableEq K] (d : List (K × V)) (k : K) : Bool :=
  (dictGet? d k).isSome

/-- A model type: its `__mro__`, the class itself first, then its ancestor
classes most-derived first.  Classes are identified by `Nat` keys. -/
structure ModelType where
  mro : List Nat
  deriving DecidableEq, Repr

/-- An incoming request: the `wagtailapi_router` attribute set by
`WagtailAPIRouter.wrap_view` (`none` until a wrapper sets it), and the rest
of the request data, abstracted to a `Nat`. -/
structure Request where
  wagtailapi_router : Option Nat := none
  body : Nat := 0
  deriving DecidableEq, Repr

/-- Responses are opaque to the router. -/
abbrev HttpResponse := Nat

/-- A view callable: request in, response out. -/
abbrev View := Request → HttpResponse

/-- A Django URL pattern as the router manipulates it: either a leaf
`re_path(regex, view)` or an `re_path(regex, include((patterns, app), namespace=ns))`. -/
inductive UrlPattern where
  | view (regex : String) (callback : View)
  | incl (regex : String) (patterns : List UrlPattern) (ns : String)

/-- An endpoint class registered with the router: its associated `model`
attribute (`none` allowed), its two class-method URL-path builders and its
own `get_urlpatterns()` result. -/
structure EndpointClass where
  model : Option Nat
  get_model_listing_urlpath : ModelType → String → Option String
  get_object_detail_urlpath : ModelType → Nat → String → Option String
  get_urlpatterns : List UrlPattern

/-- The state of a `WagtailAPIRouter` instance: the constructor argument
`url_namespace` and the two dicts `_endpoints` and `_model2endpoint`.
`ref` stands for the Python object identity of the instance (what
`request.wagtailapi_router = self` stores a reference to). -/
structure Router where
  ref : Nat
  url_namespace : String
  endpoints : List (String × EndpointClass)
  model2endpoint : List (Nat × (String × EndpointClass))

namespace Router

/-- `WagtailAPIRouter.register_endpoint(name, class_, as_default_view=True)`:
`self._endpoints[name] = class_`, then, when `as_default_view` holds and
`class_.model is not None`, `self._model2endpoint.setdefault(class_.model,
(name, class_))`. -/
def register_endpoint (self : Router) (name : String) (class_ : EndpointClass)
    (as_default_view : Bool := true) : Router :=
  let eps := dictAssign self.endpoints name class_
  let m2e :=
    match as_default_view, class_.model with
    | true, some m => dictSetdefault self.model2endpoint m (name, class_)
    | _, _ => self.model2endpoint
  { self with endpoints := eps, model2endpoint := m2e }

/-- The `for class_ in model.__mro__` loop of `get_model_endpoint`:
return `self._model2endpoint[class_]` at the first hit, fall off the end
otherwise (Python's implicit `return None`). -/
def mroLoop (m2e : List (Nat × (String × EndpointClass))) :
    List Nat → Option (String × EndpointClass)
  | [] => none
  | c :: rest =>
      match dictGet? m2e c with
      | some e => some e
      | none => mroLoop m2e rest

/-- `WagtailAPIRouter.get_model_endpoint(model, specific=False)`.  The
`specific` parameter is accepted (as in the source) and unused (as in the
source). -/
def get_model_endpoint (self : Router) (model : ModelType)
    (specific : Bool := false) : Option (String × EndpointClass) :=
  mroLoop self.model2endpoint model.mro

/-- `WagtailAPIRouter.get_model_listing_urlpath(model)`. -/
def get_model_listing_urlpath (self : Router) (model : ModelType) : Option String :=
  match self.get_model_endpoint model with
  | some (endpoint_name, endpoint_class) =>
      let url_namespace := self.url_namespace ++ ":" ++ endpoint_name
      endpoint_class.get_model_listing_urlpath model url_namespace
  | none => none

/-- `WagtailAPIRouter.get_object_detail_urlpath(model, pk)`. -/
def get_object_detail_urlpath (self : Router) (model : ModelType) (pk : Nat) :
    Option String :=
  match self.get_model_endpoint model with
  | some (endpoint_name, endpoint_class) =>
      let url_namespace := self.url_namespace ++ ":" ++ endpoint_name
      endpoint_class.get_object_detail_urlpath model pk url_namespace
  | none => none

/-- `WagtailAPIRouter.wrap_view(func)`: the wrapper sets
`request.wagtailapi_router = self` and then calls `func` on that request. -/
def wrap_view (self : Router) (func : View) : View :=
  fun request => func { request with wagtailapi_router := some self.ref }

end Router

/-- Modelled from the spec: `wagtail.utils.urlpatterns.decorate_urlpatterns`
is not part of the sources under verification (only its caller
`get_urlpatterns` is).  Per the spec, every route fragment produced,
including nested ones, is wrapped with the decorating function, so the
decorator applies `fn` to every leaf view callback, recursing into included
pattern lists. -/
def decorate_urlpatterns (fn : View → View) : List UrlPattern → List UrlPattern
  | [] => []
  | .view regex cb :: rest =>
      .view regex (fn cb) :: decorate_urlpatterns fn rest
  | .incl regex ps ns :: rest =>
      .incl regex (decorate_urlpatterns fn ps) ns :: decorate_urlpatterns fn rest

namespace Router

/-- `WagtailAPIRouter.get_urlpatterns()`: one
`re_path(rf"^{name}/", include((class_.get_urlpatterns(), name), namespace=name))`
per registry entry, in registry order, then
`decorate_urlpatterns(urlpatterns, self.wrap_view)`. -/
def get_urlpatterns (self : Router) : List UrlPattern :=
  let urlpatterns := self.endpoints.map fun nc =>
    UrlPattern.incl ("^" ++ nc.1 ++ "/") nc.2.get_urlpatterns nc.1
  decorate_urlpatterns self.wrap_view urlpatterns

/-- The `urls` property: `(self.get_urlpatterns(), self.url_namespace,
self.url_namespace)`. -/
def urls (self : Router) : List UrlPattern × String × String :=
  (self.get_urlpatterns, self.url_namespace, self.url_namespace)

end Router

/-- The routing structure of a pattern list with the view callbacks erased:
what remains is each fragment's regex, nesting and namespace. -/
inductive RouteShape where
  | view (regex : String)
  | incl (regex : String) (children : List RouteShape) (ns : String)
  deriving Repr

/-- Erase the view callbacks of a pattern list, keeping the routing
structure. -/
def shapeList : List UrlPattern → List RouteShape
  | [] => []
  | .view regex _ :: rest => .view regex :: shapeList rest
  | .incl regex ps ns :: rest => .incl regex (shapeList ps) ns :: shapeList rest

/-- Every view callback in the pattern list, including those nested inside
`include`d lists, is the image of some view under the wrapper `w`. -/
def AllWrapped (w : View → View) : List UrlPattern → Prop
  | [] => True
  | .view _ cb :: rest => (∃ f, cb = w f) ∧ AllWrapped w rest
  | .incl _ ps _ :: rest => AllWrapped w ps ∧ AllWrapped w rest

/-- The `for class_ in model.__mro__` loop of `get_model_endpoint`,
translated statement by statement with the router state threaded through
each read (`class_ in self._model2endpoint`, then
`self._model2endpoint[class_]`), to make the method's effect on the state
visible. -/
def mroLoopRun : List Nat → Router → Option (String × EndpointClass) × Router
  | [], r => (none, r)
  | c :: rest, r =>
      if dictContains r.model2endpoint c then (dictGet? r.model2endpoint c, r)
      else mroLoopRun rest r

/-- `get_model_endpoint` in state-passing form: the result paired with the
router state as it stands when the method returns. -/
def Router.get_model_endpoint_run (self : Router) (model : ModelType)
    (specific : Bool := false) : Option (String × EndpointClass) × Router :=
  mroLoopRun model.mro self

/-! ## Concrete instances used to exercise the theorems -/

/-- A pages-like endpoint class whose associated model is class `0`. -/
def epPages : EndpointClass where
  model := some 0
  get_model_listing_urlpath := fun _ ns => some ("/" ++ ns ++ "/pages/")
  get_object_detail_urlpath := fun _ pk ns => some ("/" ++ ns ++ "/" ++ toString pk ++ "/")
  get_urlpatterns := [.view "^$" (fun rq => rq.body)]

/-- An images-like endpoint class whose associated model is class `1`. -/
def epImages : EndpointClass where
  model := some 1
  get_model_listing_urlpath := fun _ ns => some ("/" ++ ns ++ "/images/")
  get_object_detail_urlpath := fun _ pk ns => some ("/" ++ ns ++ "/" ++ toString pk ++ "/")
  get_urlpatterns := [.view "^$" (fun rq => rq.body + 1)]

/-- A second endpoint class that also claims model class `0` as default. -/
def epPagesAlt : EndpointClass where
  model := some 0
  get_model_listing_urlpath := fun _ ns => some ("/" ++ ns ++ "/alt/")
  get_object_detail_urlpath := fun _ _ _ => none
  get_urlpatterns := []

/-- A freshly constructed router: `WagtailAPIRouter("api")`. -/
def r0 : Router where
  ref := 0
  url_namespace := "api"
  endpoints := []
  model2endpoint := []

/-- An endpoint class whose associated model is class `5`. -/
def epSpecial : EndpointClass where
  model := some 5
  get_model_listing_urlpath := fun _ ns => some ("/" ++ ns ++ "/special/")
  get_object_detail_urlpath := fun _ _ _ => none
  get_urlpatterns := []

/-- `r0` with `"pages"` and `"images"` endpoints registered. -/
def rDemo : Router :=
  (r0.register_endpoint "pages" epPages).register_endpoint "images" epImages

/-- `r0` with only the `"pages"` endpoint registered. -/
def rA : Router := r0.register_endpoint "pages" epPages

/-- `r0` with the pages endpoint registered under the name `"v2"`. -/
def rV2 : Router := r0.register_endpoint "v2" epPages

/-! ## Dictionary lemmas -/

theorem dictGet?_assign_self {K V : Type} [DecidableEq K]
    (d : List (K × V)) (k : K) (v : V) :
    dictGet? (dictAssign d k v) k = some v := by
  induction d with
  | nil => simp [dictAssign, dictGet?]
  | cons p rest ih =>
      obtain ⟨pk, pv⟩ := p
      by_cases h : pk = k
      · simp [dictAssign, dictGet?, h]
      · simp [dictAssign, dictGet?, h, ih]

theorem dictGet?_assign_ne {K V : Type} [DecidableEq K]
    (d : List (K × V)) (k k' : K) (v : V) (hne : k' ≠ k) :
    dictGet? (dictAssign d k v) k' = dictGet? d k' := by
  have hne' : ¬ k = k' := fun h => hne h.symm
  induction d with
  | nil => simp [dictAssign, dictGet?, hne']
  | cons p rest ih =>
      obtain ⟨pk, pv⟩ := p
      by_cases h : pk = k
      · subst h
        simp [dictAssign, dictGet?, hne']
      · simp [dictAssign, dictGet?, h, ih]

theorem dictGet?_setdefault_ne {K V : Type} [DecidableEq K]
    (d : List (K × V)) (k k' : K) (v : V) (hne : k' ≠ k) :
    dictGet? (dictSetdefault d k v) k' = dictGet? d k' := by
  have hne' : ¬ k = k' := fun h => hne h.symm
  induction d with
  | nil => simp [dictSetdefault, dictGet?, hne']
  | cons p rest ih =>
      obtain ⟨pk, pv⟩ := p
      by_cases h : pk = k
      · simp [dictSetdefault, dictGet?, h]
      · simp [dictSetdefault, dictGet?, h, ih]

theorem dictGet?_setdefault_absent {K V : Type} [DecidableEq K]
    (d : List (K × V)) (k : K) (v : V) (habs : dictGet? d k = none) :
    dictGet? (dictSetdefault d k v) k = some v := by
  induction d with
  | nil => simp [dictSetdefault, dictGet?]
  | cons p rest ih =>
      obtain ⟨pk, pv⟩ := p
      by_cases h : pk = k
      · simp [dictGet?, h] at habs
      · simp [dictGet?, h] at habs
        simp [dictSetdefault, dictGet?, h, ih habs]

theorem dictSetdefault_of_present {K V : Type} [DecidableEq K]
    (d : List (K × V)) (k : K) (v : V) (hpres : dictGet? d k ≠ none) :
    dictSetdefault d k v = d := by
  induction d with
  | nil => simp [dictGet?] at hpres
  | cons p rest ih =>
      obtain ⟨pk, pv⟩ := p
      by_cases h : pk = k
      · simp [dictSetdefault, h]
      · simp [dictGet?, h] at hpres
        simp [dictSetdefault, h, ih hpres]

theorem dictGet?_setdefault_of_mem {K V : Type} [DecidableEq K]
    (d : List (K × V)) (k k' : K) (v v' : V) (hk' : dictGet? d k' = some v') :
    dictGet? (dictSetdefault d k v) k' = some v' := by
  by_cases h : k' = k
  · subst h
    rw [dictSetdefault_of_present d k' v (by simp [hk'])]
    exact hk'
  · rw [dictGet?_setdefault_ne d k k' v h]
    exact hk'

/-! ## Helper lemmas about the router operations -/

theorem mroLoop_eq_findSome? (m2e : List (Nat × (String × EndpointClass)))
    (l : List Nat) :
    Router.mroLoop m2e l = l.findSome? (fun c => dictGet? m2e c) := by
  induction l with
  | nil => rfl
  | cons c rest ih =>
      cases h : dictGet? m2e c <;>
        simp [Router.mroLoop, List.findSome?_cons, h, ih]

theorem mroLoop_eq_none (m2e : List (Nat × (String × EndpointClass)))
    (l : List Nat) (h : ∀ c ∈ l, dictGet? m2e c = none) :
    Router.mroLoop m2e l = none := by
  induction l with
  | nil => rfl
  | cons c rest ih =>
      have hc : dictGet? m2e c = none := h c (by simp)
      simp [Router.mroLoop, hc]
      exact ih fun c2 hc2 => h c2 (by simp [hc2])

theorem mroLoopRun_eq (r : Router) (l : List Nat) :
    mroLoopRun l r = (Router.mroLoop r.model2endpoint l, r) := by
  induction l with
  | nil => rfl
  | cons c rest ih =>
      cases h : dictGet? r.model2endpoint c <;>
        simp [mroLoopRun, Router.mroLoop, dictContains, h, ih]

theorem decorate_map_incl (fn : View → View) (l : List (String × EndpointClass)) :
    decorate_urlpatterns fn
      (l.map fun nc => UrlPattern.incl ("^" ++ nc.1 ++ "/") nc.2.get_urlpatterns nc.1) =
    l.map fun nc =>
      UrlPattern.incl ("^" ++ nc.1 ++ "/")
        (decorate_urlpatterns fn nc.2.get_urlpatterns) nc.1 := by
  induction l with
  | nil => simp [decorate_urlpatterns]
  | cons p rest ih => simp [decorate_urlpatterns, ih]

theorem shapeList_decorate (fn : View → View) :
    (ps : List UrlPattern) → shapeList (decorate_urlpatterns fn ps) = shapeList ps
  | [] => by simp [decorate_urlpatterns]
  | .view regex cb :: rest => by
      simp [decorate_urlpatterns, shapeList, shapeList_decorate fn rest]
  | .incl regex ps ns :: rest => by
      simp [decorate_urlpatterns, shapeList, shapeList_decorate fn ps,
        shapeList_decorate fn rest]

theorem allWrapped_decorate (w : View → View) :
    (ps : List UrlPattern) → AllWrapped w (decorate_urlpatterns w ps)
  | [] => by simp [decorate_urlpatterns, AllWrapped]
  | .view regex cb :: rest => by
      simp only [decorate_urlpatterns, AllWrapped]
      exact ⟨⟨cb, rfl⟩, allWrapped_decorate w rest⟩
  | .incl regex ps ns :: rest => by
      simp only [decorate_urlpatterns, AllWrapped]
      exact ⟨allWrapped_decorate w ps, allWrapped_decorate w rest⟩

/-! ## The claims -/

/-- C1: `register_endpoint(name, E, d)` sets the registry entry for `name`
to `E` unconditionally; the default index gains the entry
`defaultIndex[M] = (name, E)` only when `d` holds, `E.model = some M` and
no entry for `M` exists yet; an existing entry for `M` survives unchanged,
and when `d` is false or `M` is not `E`'s model the index is untouched at
`M`.  In particular, after registering `E1` then `E2` under the same name,
both claiming model `M` as default with `M` previously unclaimed, the
registry resolves the name to `E2` while `get_model_endpoint` on `M` still
returns `E1`. -/
theorem register_endpoint_correct (r : Router) (name : String) (E : EndpointClass)
    (d : Bool) (M : Nat) :
    dictGet? (r.register_endpoint name E d).endpoints name = some E ∧
    (d = true → E.model = some M → dictGet? r.model2endpoint M = none →
      dictGet? (r.register_endpoint name E d).model2endpoint M = some (name, E)) ∧
    (∀ p, dictGet? r.model2endpoint M = some p →
      dictGet? (r.register_endpoint name E d).model2endpoint M = some p) ∧
    ((d = false ∨ E.model ≠ some M) →
      dictGet? (r.register_endpoint name E d).model2endpoint M =
        dictGet? r.model2endpoint M) ∧
    (∀ (E1 E2 : EndpointClass), E1.model = some M → E2.model = some M →
      dictGet? r.model2endpoint M = none →
      dictGet? ((r.register_endpoint name E1).register_endpoint name E2).endpoints
          name = some E2 ∧
      ((r.register_endpoint name E1).register_endpoint name E2).get_model_endpoint
          ⟨[M]⟩ = some (name, E1)) := by
  refine ⟨?_, ?_, ?_, ?_, ?_⟩
  · simp [Router.register_endpoint, dictGet?_assign_self]
  · intro hd hm habs
    simp [Router.register_endpoint, hd, hm, dictGet?_setdefault_absent _ _ _ habs]
  · intro p hp
    cases d with
    | false => simpa [Router.register_endpoint] using hp
    | true =>
        cases hm : E.model with
        | none => simpa [Router.register_endpoint, hm] using hp
        | some m =>
            simp [Router.register_endpoint, hm,
              dictGet?_setdefault_of_mem _ _ _ _ _ hp]
  · intro h
    cases d with
    | false => simp [Router.register_endpoint]
    | true =>
        rcases h with hd | hm
        · simp at hd
        · cases hmE : E.model with
          | none => simp [Router.register_endpoint, hmE]
          | some m =>
              have hne : M ≠ m := fun he => hm (by rw [hmE, he])
              simp [Router.register_endpoint, hmE,
                dictGet?_setdefault_ne _ _ _ _ hne]
  · intro E1 E2 h1 h2 habs
    have hg1 : dictGet? (dictSetdefault r.model2endpoint M (name, E1)) M =
        some (name, E1) := dictGet?_setdefault_absent _ _ _ habs
    have hpres : dictGet? (dictSetdefault r.model2endpoint M (name, E1)) M ≠ none := by
      simp [hg1]
    have hm2 : ((r.register_endpoint name E1).register_endpoint name E2).model2endpoint
        = dictSetdefault r.model2endpoint M (name, E1) := by
      simp [Router.register_endpoint, h1, h2]
      exact dictSetdefault_of_present _ _ _ hpres
    constructor
    · simp [Router.register_endpoint, dictGet?_assign_self]
    · simp [Router.get_model_endpoint, hm2, Router.mroLoop, hg1]

/-- C1 witness: on a fresh router with namespace `"api"`, registering
`epPages` then `epPagesAlt` under the name `"v2"`, both claiming model
class `0` as default, leaves the registry resolving `"v2"` to `epPagesAlt`
while the model lookup for class `0` still yields `epPages`. -/
theorem register_endpoint_correct_witness :
    dictGet? ((r0.register_endpoint "v2" epPages).register_endpoint "v2"
        epPagesAlt).endpoints "v2" = some epPagesAlt ∧
    ((r0.register_endpoint "v2" epPages).register_endpoint "v2"
        epPagesAlt).get_model_endpoint ⟨[0]⟩ = some ("v2", epPages) :=
  (register_endpoint_correct r0 "v2" epPagesAlt true 0).2.2.2.2 epPages epPagesAlt
    rfl rfl rfl

/-- C2: `get_model_endpoint` walks the model's `__mro__` most-derived
first and returns the default-index entry of the first ancestor class
found (formalised as `List.findSome?` over the mro); if no ancestor is in
the index the result is `none`; a derived model `D` subclassing a
registered base `B` with no registration of its own resolves to `B`'s
entry, while registering a default endpoint for `D` makes `D` resolve to
it without changing `B`'s resolution. -/
theorem get_model_endpoint_correct (r : Router) (m : ModelType) :
    r.get_model_endpoint m = m.mro.findSome? (fun c => dictGet? r.model2endpoint c) ∧
    ((∀ c ∈ m.mro, dictGet? r.model2endpoint c = none) →
      r.get_model_endpoint m = none) ∧
    (∀ (B D : Nat) (nB : String) (EB : EndpointClass),
      dictGet? r.model2endpoint B = some (nB, EB) →
      dictGet? r.model2endpoint D = none →
      r.get_model_endpoint ⟨[D, B]⟩ = some (nB, EB) ∧
      ∀ (n2 : String) (E2 : EndpointClass), E2.model = some D →
        (r.register_endpoint n2 E2).get_model_endpoint ⟨[D, B]⟩ = some (n2, E2) ∧
        (r.register_endpoint n2 E2).get_model_endpoint ⟨[B]⟩ = some (nB, EB)) := by
  refine ⟨mroLoop_eq_findSome? _ _, ?_, ?_⟩
  · intro h
    exact mroLoop_eq_none _ _ h
  · intro B D nB EB hB hD
    have hDB : B ≠ D := by
      intro he
      rw [he, hD] at hB
      cases hB
    constructor
    · simp [Router.get_model_endpoint, Router.mroLoop, hD, hB]
    · intro n2 E2 h2
      have hm2 : (r.register_endpoint n2 E2).model2endpoint =
          dictSetdefault r.model2endpoint D (n2, E2) := by
        simp [Router.register_endpoint, h2]
      have hgD : dictGet? (dictSetdefault r.model2endpoint D (n2, E2)) D =
          some (n2, E2) := dictGet?_setdefault_absent _ _ _ hD
      have hgB : dictGet? (dictSetdefault r.model2endpoint D (n2, E2)) B =
          some (nB, EB) := by
        rw [dictGet?_setdefault_ne _ _ _ _ hDB]
        exact hB
      constructor
      · simp [Router.get_model_endpoint, hm2, Router.mroLoop, hgD]
      · simp [Router.get_model_endpoint, hm2, Router.mroLoop, hgB]

/-- C2 witness: with `epPages` registered as default for base class `0`,
the derived model with mro `[5, 0]` resolves to it; after registering
`epSpecial` (model class `5`) as default, the derived model resolves to
`epSpecial` while class `0` still resolves to `epPages`. -/
theorem get_model_endpoint_correct_witness :
    (rA.register_endpoint "special" epSpecial).get_model_endpoint ⟨[5, 0]⟩ =
      some ("special", epSpecial) ∧
    (rA.register_endpoint "special" epSpecial).get_model_endpoint ⟨[0]⟩ =
      some ("pages", epPages) :=
  ((get_model_endpoint_correct rA ⟨[5, 0]⟩).2.2 0 5 "pages" epPages rfl rfl).2
    "special" epSpecial rfl

/-- C3: when `get_model_endpoint` resolves a model to `(name, E)`, the
listing path is exactly `E`'s listing-path builder applied to the model
and the qualified namespace `url_namespace ++ ":" ++ name`, and the detail
path is exactly `E`'s detail-path builder applied to `(model, pk,
qualified namespace)`; in particular an absent builder result passes
through unchanged. -/
theorem urlpath_delegation (r : Router) (m : ModelType) (pk : Nat)
    (name : String) (E : EndpointClass)
    (h : r.get_model_endpoint m = some (name, E)) :
    r.get_model_listing_urlpath m =
      E.get_model_listing_urlpath m (r.url_namespace ++ ":" ++ name) ∧
    r.get_object_detail_urlpath m pk =
      E.get_object_detail_urlpath m pk (r.url_namespace ++ ":" ++ name) := by
  constructor
  · simp [Router.get_model_listing_urlpath, h]
  · simp [Router.get_object_detail_urlpath, h]

/-- C3 witness: router namespace `"api"`, endpoint name `"v2"`: both path
methods delegate to `epPages`'s builders with the qualified namespace
exactly `"api:v2"`. -/
theorem urlpath_delegation_witness :
    rV2.get_model_listing_urlpath ⟨[0]⟩ =
      epPages.get_model_listing_urlpath ⟨[0]⟩ "api:v2" ∧
    rV2.get_object_detail_urlpath ⟨[0]⟩ 7 =
      epPages.get_object_detail_urlpath ⟨[0]⟩ 7 "api:v2" :=
  urlpath_delegation rV2 ⟨[0]⟩ 7 "v2" epPages rfl

/-- C4: for a model none of whose mro classes is in the default index,
`get_model_endpoint`, `get_model_listing_urlpath` and
`get_object_detail_urlpath` all return `none` (the embedding is total, so
no exception is possible). -/
theorem unresolved_model_absent (r : Router) (m : ModelType) (pk : Nat)
    (h : ∀ c ∈ m.mro, dictGet? r.model2endpoint c = none) :
    r.get_model_endpoint m = none ∧
    r.get_model_listing_urlpath m = none ∧
    r.get_object_detail_urlpath m pk = none := by
  have h0 : r.get_model_endpoint m = none := mroLoop_eq_none _ _ h
  exact ⟨h0, by simp [Router.get_model_listing_urlpath, h0],
    by simp [Router.get_object_detail_urlpath, h0]⟩

/-- C4 witness: on the demo router (models `0` and `1` registered), a
model whose mro is `[7, 8]` yields `none` from all three lookups. -/
theorem unresolved_model_absent_witness :
    rDemo.get_model_endpoint ⟨[7, 8]⟩ = none ∧
    rDemo.get_model_listing_urlpath ⟨[7, 8]⟩ = none ∧
    rDemo.get_object_detail_urlpath ⟨[7, 8]⟩ 3 = none :=
  unresolved_model_absent rDemo ⟨[7, 8]⟩ 3 (by
    intro c hc
    simp only [List.mem_cons, List.not_mem_nil, or_false] at hc
    rcases hc with rfl | rfl <;> rfl)

/-- C5: `get_urlpatterns` returns exactly one top-level fragment per
registry entry, in registry order: for entry `(name, class_)` the fragment
matches the regex `"^" ++ name ++ "/"` and nests `class_`'s own generated
sub-routes (wrapped by the router's view decorator) under namespace
`name`; erasing the view callbacks, the nested routes have precisely the
structure of `class_.get_urlpatterns`. -/
theorem get_urlpatterns_correct (r : Router) :
    r.get_urlpatterns.length = r.endpoints.length ∧
    r.get_urlpatterns = r.endpoints.map (fun nc =>
      UrlPattern.incl ("^" ++ nc.1 ++ "/")
        (decorate_urlpatterns r.wrap_view nc.2.get_urlpatterns) nc.1) ∧
    shapeList r.get_urlpatterns = r.endpoints.map (fun nc =>
      RouteShape.incl ("^" ++ nc.1 ++ "/") (shapeList nc.2.get_urlpatterns) nc.1) := by
  have h2 : r.get_urlpatterns = r.endpoints.map (fun nc =>
      UrlPattern.incl ("^" ++ nc.1 ++ "/")
        (decorate_urlpatterns r.wrap_view nc.2.get_urlpatterns) nc.1) := by
    show decorate_urlpatterns r.wrap_view
        (r.endpoints.map fun nc =>
          UrlPattern.incl ("^" ++ nc.1 ++ "/") nc.2.get_urlpatterns nc.1) = _
    exact decorate_map_incl r.wrap_view r.endpoints
  refine ⟨by rw [h2, List.length_map], h2, ?_⟩
  rw [h2]
  generalize r.endpoints = l
  induction l with
  | nil => simp [shapeList]
  | cons p rest ih => simp [shapeList, shapeList_decorate, ih]

/-- C6: every view callback in the routes `get_urlpatterns` returns,
nested ones included, is the image of some view under `wrap_view`; a
wrapped view invokes the inner handler exactly on the request with the
router reference attached, so the inner handler never runs on a request
lacking it. -/
theorem wrap_view_correct (r : Router) :
    AllWrapped r.wrap_view r.get_urlpatterns ∧
    (∀ (f : View) (request : Request),
      r.wrap_view f request = f { request with wagtailapi_router := some r.ref } ∧
      ({ request with wagtailapi_router := some r.ref } : Request).wagtailapi_router
        = some r.ref) := by
  constructor
  · show AllWrapped r.wrap_view (decorate_urlpatterns r.wrap_view _)
    exact allWrapped_decorate r.wrap_view _
  · exact fun f request => ⟨rfl, rfl⟩

/-- C7: the `urls` property returns the triple `(routeFragments,
namespace, namespace)`, and a second call on the same router state
produces a content-equal route list. -/
theorem urls_correct (r : Router) :
    r.urls = (r.get_urlpatterns, r.url_namespace, r.url_namespace) ∧
    ∀ r2 : Router, r2 = r → r2.urls.1 = r.urls.1 :=
  ⟨rfl, fun r2 h => by rw [h]⟩

/-- C7 witness: two evaluations of `urls` on the demo router agree on the
route list. -/
theorem urls_correct_witness : rDemo.urls.1 = rDemo.urls.1 :=
  (urls_correct rDemo).2 rDemo rfl

/-- C8: `get_model_endpoint` is a pure read: its state-threaded
translation returns the router unchanged — in particular both the
registry and the default-endpoint index — and computes the same value as
the direct function. -/
theorem get_model_endpoint_pure (r : Router) (m : ModelType) (s : Bool) :
    (r.get_model_endpoint_run m s).2 = r ∧
    (r.get_model_endpoint_run m s).2.endpoints = r.endpoints ∧
    (r.get_model_endpoint_run m s).2.model2endpoint = r.model2endpoint ∧
    (r.get_model_endpoint_run m s).1 = r.get_model_endpoint m s := by
  have h := mroLoopRun_eq r m.mro
  exact ⟨by simp [Router.get_model_endpoint_run, h],
    by simp [Router.get_model_endpoint_run, h],
    by simp [Router.get_model_endpoint_run, h],
    by simp [Router.get_model_endpoint_run, Router.get_model_endpoint, h]⟩

/-- C9: the `specific` parameter of `get_model_endpoint` has no effect on
the result. -/
theorem get_model_endpoint_specific_irrelevant (r : Router) (m : ModelType) :
    r.get_model_endpoint m true = r.get_model_endpoint m false := rfl

/-- C10: `register_endpoint(name, E, d)` is frame-confined: registry
entries under other names are unchanged, default-index entries for model
classes other than `E`'s model are unchanged, every previously present
registry key stays present, and every previously present default-index
entry survives with its exact value. -/
theorem register_endpoint_frame (r : Router) (name : String) (E : EndpointClass)
    (d : Bool) :
    (∀ n, n ≠ name →
      dictGet? (r.register_endpoint name E d).endpoints n = dictGet? r.endpoints n) ∧
    (∀ M, E.model ≠ some M →
      dictGet? (r.register_endpoint name E d).model2endpoint M =
        dictGet? r.model2endpoint M) ∧
    (∀ n v, dictGet? r.endpoints n = some v →
      ∃ v2, dictGet? (r.register_endpoint name E d).endpoints n = some v2) ∧
    (∀ M p, dictGet? r.model2endpoint M = some p →
      dictGet? (r.register_endpoint name E d).model2endpoint M = some p) := by
  refine ⟨?_, ?_, ?_, ?_⟩
  · intro n hn
    simp [Router.register_endpoint, dictGet?_assign_ne _ _ _ _ hn]
  · intro M hm
    cases d with
    | false => simp [Router.register_endpoint]
    | true =>
        cases hmE : E.model with
        | none => simp [Router.register_endpoint, hmE]
        | some mm =>
            have hne : M ≠ mm := fun he => hm (by rw [hmE, he])
            simp [Router.register_endpoint, hmE,
              dictGet?_setdefault_ne _ _ _ _ hne]
  · intro n v hv
    by_cases hn : n = name
    · subst hn
      exact ⟨E, by simp [Router.register_endpoint, dictGet?_assign_self]⟩
    · exact ⟨v, by simp [Router.register_endpoint, dictGet?_assign_ne _ _ _ _ hn, hv]⟩
  · intro M p hp
    cases d with
    | false => simpa [Router.register_endpoint] using hp
    | true =>
        cases hmE : E.model with
        | none => simpa [Router.register_endpoint, hmE] using hp
        | some mm =>
            simp [Router.register_endpoint, hmE,
              dictGet?_setdefault_of_mem _ _ _ _ _ hp]

/-- C10 witness: registering `epImages` on the pages-only router leaves
the `"pages"` registry entry and the class-`0` default entry intact. -/
theorem register_endpoint_frame_witness :
    dictGet? (rA.register_endpoint "images" epImages).endpoints "pages" =
      dictGet? rA.endpoints "pages" ∧
    dictGet? (rA.register_endpoint "images" epImages).model2endpoint 0 =
      some ("pages", epPages) :=
  ⟨(register_endpoint_frame rA "images" epImages true).1 "pages" (by decide),
   (register_endpoint_frame rA "images" epImages true).2.2.2 0 ("pages", epPages) rfl⟩

end WagtailRouter
